import Mathlib

/-!
# Verification development for `script.js`

A shallow embedding of the page script: the mobile menu handlers, the
active-section tracker `updateActiveNav`, the counter animation of
`animateCounters` and the contact form submit handler with `showFormStatus`.

The DOM is modelled by explicit records that hold exactly the properties the
script reads or writes; each handler is a function on those records.
-/

namespace WebSite

/-! ## Mobile menu -/

/-- The part of the DOM the mobile menu handlers touch.
`btnActive` and `menuActive` say whether `mobileMenuBtn` and `navMenu` carry the
class "active"; the two attributes are `none` while the attribute is absent;
`bodyOverflow` is `document.body.style.overflow`; `btnFocusCalls` counts the
calls of `mobileMenuBtn.focus()`. -/
structure Menu where
  btnActive : Bool
  menuActive : Bool
  ariaExpanded : Option String
  ariaHidden : Option String
  bodyOverflow : String
  btnFocusCalls : Nat
  deriving DecidableEq

/-- The click handler of `mobileMenuBtn` (lines 25-33): both class lists are
toggled independently, `isActive` is the result of toggling the button's. -/
def toggleClick (m : Menu) : Menu :=
  let isActive := !m.btnActive
  { m with
    btnActive := isActive
    menuActive := !m.menuActive
    ariaExpanded := some (if isActive then "true" else "false")
    ariaHidden := some (if isActive then "false" else "true")
    bodyOverflow := if isActive then "hidden" else "" }

/-- The click handler installed on every nav link (lines 37-43). -/
def linkClick (m : Menu) : Menu :=
  { m with
    btnActive := false
    menuActive := false
    ariaExpanded := some "false"
    ariaHidden := some "true"
    bodyOverflow := "" }

/-- The `keydown` handler of the document (lines 47-56). -/
def keydown (key : String) (m : Menu) : Menu :=
  if key = "Escape" && m.menuActive then
    { m with
      btnActive := false
      menuActive := false
      ariaExpanded := some "false"
      ariaHidden := some "true"
      bodyOverflow := ""
      btnFocusCalls := m.btnFocusCalls + 1 }
  else m

/-- The user events the menu handlers listen to. -/
inductive MenuEvent where
  | toggle
  | navLink
  | key (k : String)
  deriving DecidableEq

/-- One event dispatched to its handler. -/
def menuStep (m : Menu) : MenuEvent → Menu
  | .toggle => toggleClick m
  | .navLink => linkClick m
  | .key k => keydown k m

/-- The menu after a sequence of events, oldest first. -/
def menuRun (m : Menu) (evs : List MenuEvent) : Menu :=
  evs.foldl menuStep m

/-- The three reflections of the open/closed state agree on "closed": neither
element carries "active" and `aria-expanded` is not "true". -/
def ReflectionsClosed (m : Menu) : Prop :=
  m.btnActive = false ∧ m.menuActive = false ∧ m.ariaExpanded ≠ some "true"

instance (m : Menu) : Decidable (ReflectionsClosed m) :=
  inferInstanceAs (Decidable (_ ∧ _ ∧ _))

/-- The three reflections agree, and an open menu has `aria-hidden` "false" and
the body scroll locked. -/
def MenuConsistent (m : Menu) : Prop :=
  (m.menuActive = true ↔ m.btnActive = true) ∧
  (m.btnActive = true ↔ m.ariaExpanded = some "true") ∧
  (m.btnActive = true → m.ariaHidden = some "false" ∧ m.bodyOverflow = "hidden")

/-! ## Active navigation state

Offsets and heights are integers, in CSS pixels. -/

/-- A `.section` element: `offsetTop`, `offsetHeight` and its `id` attribute
(`none` when absent). -/
structure Section where
  offsetTop : Int
  offsetHeight : Int
  id : Option String
  deriving DecidableEq

/-- A `.nav-link` element: its `href` attribute (`none` when absent) and whether
its class list contains "active". -/
structure NavLink where
  href : Option String
  active : Bool
  deriving DecidableEq

/-- The template literal with `#` before the section id; an absent attribute is
`null` and prints as "null". -/
def fragment (sectionId : Option String) : String :=
  "#" ++ sectionId.getD "null"

/-- The probe `window.pageYOffset + (nav ? nav.offsetHeight : 0) + 100`; `nav`
is the height of the nav bar, `none` when the page has no nav bar. -/
def scrollPosition (pageYOffset : Int) (nav : Option Int) : Int :=
  pageYOffset + (match nav with | some h => h | none => 0) + 100

/-- The test of lines 95-98. -/
def containsProbe (pos : Int) (s : Section) : Bool :=
  decide (pos ≥ s.offsetTop) && decide (pos < s.offsetTop + s.offsetHeight)

/-- The inner `navLinks.forEach` (lines 99-104): every link loses "active", the
links whose href is the fragment of the section get it back. -/
def markLinks (sectionId : Option String) (links : List NavLink) : List NavLink :=
  links.map fun link =>
    let link := { link with active := false }
    if link.href = some (fragment sectionId) then { link with active := true } else link

/-- The function `updateActiveNav` (lines 86-107): the links after the call. -/
def updateActiveNav (pageYOffset : Int) (nav : Option Int) (sections : List Section)
    (links : List NavLink) : List NavLink :=
  let pos := scrollPosition pageYOffset nav
  sections.foldl (fun links s => if containsProbe pos s then markLinks s.id links else links) links

/-- The sections whose range contains the probe, in document order. -/
def matching (pageYOffset : Int) (nav : Option Int) (sections : List Section) : List Section :=
  sections.filter (containsProbe (scrollPosition pageYOffset nav))

/-- Number of links that carry "active". -/
def activeCount (links : List NavLink) : Nat :=
  links.countP (fun l => l.active)

/-! ## Strings and the email pattern

Strings are sequences of Unicode characters. The script tells apart only white
space, "@" and ".", all of which are single UTF-16 code units, so a character
outside the Basic Multilingual Plane behaves as the two code units JavaScript
stores for it: both are outside the white space class and differ from "@". -/

/-- The characters that `String.prototype.trim` strips and that the regular
expression class for white space matches: the ECMAScript WhiteSpace and
LineTerminator code points. -/
def isWhiteSpace (c : Char) : Bool :=
  let n := c.toNat
  n == 0x09 || n == 0x0A || n == 0x0B || n == 0x0C || n == 0x0D || n == 0x20 || n == 0xA0 ||
  n == 0x1680 || (decide (0x2000 ≤ n) && decide (n ≤ 0x200A)) || n == 0x2028 || n == 0x2029 ||
  n == 0x202F || n == 0x205F || n == 0x3000 || n == 0xFEFF

/-- Regular expressions over characters, with character classes given by a
predicate: enough to write the pattern of `emailRegex`. -/
inductive Regex where
  | nothing
  | epsilon
  | cls (p : Char → Bool)
  | alt (r s : Regex)
  | seq (r s : Regex)
  | star (r : Regex)

namespace Regex

/-- A literal character. -/
def chr (c : Char) : Regex := cls (fun d => d == c)

/-- One or more repetitions, the `+` quantifier. -/
def plus (r : Regex) : Regex := seq r (star r)

/-- Whether the expression accepts the empty string. -/
def nullable : Regex → Bool
  | nothing => false
  | epsilon => true
  | cls _ => false
  | alt r s => r.nullable || s.nullable
  | seq r s => r.nullable && s.nullable
  | star _ => true

/-- The expression that accepts what may follow the character `c`. -/
def deriv : Regex → Char → Regex
  | nothing, _ => nothing
  | epsilon, _ => nothing
  | cls p, c => if p c then epsilon else nothing
  | alt r s, c => alt (r.deriv c) (s.deriv c)
  | seq r s, c => if r.nullable then alt (seq (r.deriv c) s) (s.deriv c) else seq (r.deriv c) s
  | star r, c => seq (r.deriv c) (star r)

/-- The method `test` of a pattern anchored at both ends (`^` and `$`, no
flags): whether the whole string is accepted. -/
def test (r : Regex) (s : List Char) : Bool :=
  (s.foldl deriv r).nullable

/-- The strings an expression accepts. -/
inductive Matches : Regex → List Char → Prop
  | epsilon : Matches epsilon []
  | cls (p : Char → Bool) (c : Char) : p c = true → Matches (cls p) [c]
  | altLeft (r s : Regex) (x : List Char) : Matches r x → Matches (alt r s) x
  | altRight (r s : Regex) (x : List Char) : Matches s x → Matches (alt r s) x
  | seq (r s : Regex) (x y : List Char) : Matches r x → Matches s y → Matches (seq r s) (x ++ y)
  | starNil (r : Regex) : Matches (star r) []
  | starCons (r : Regex) (x y : List Char) :
      Matches r x → Matches (star r) y → Matches (star r) (x ++ y)

end Regex

/-- The class `[^\s@]`. -/
def notSpaceAt (c : Char) : Bool := !(isWhiteSpace c || c == '@')

/-- The pattern `/^[^\s@]+@[^\s@]+\.[^\s@]+$/` (line 242). -/
def emailRegex : Regex :=
  .seq (.plus (.cls notSpaceAt)) (.seq (.chr '@') (.seq (.plus (.cls notSpaceAt))
    (.seq (.chr '.') (.plus (.cls notSpaceAt)))))

/-- The spec's shape of an accepted email: `u@v.w` with `u`, `v`, `w` non-empty
and free of white space and of "@". -/
def EmailShaped (e : List Char) : Prop :=
  ∃ u v w : List Char, u ≠ [] ∧ v ≠ [] ∧ w ≠ [] ∧
    (∀ c ∈ u, isWhiteSpace c = false ∧ c ≠ '@') ∧
    (∀ c ∈ v, isWhiteSpace c = false ∧ c ≠ '@') ∧
    (∀ c ∈ w, isWhiteSpace c = false ∧ c ≠ '@') ∧
    e = u ++ '@' :: (v ++ '.' :: w)

/-- Leading white space removed. -/
def trimStart (s : List Char) : List Char :=
  s.dropWhile isWhiteSpace

/-- Trailing white space removed. -/
def trimEnd (s : List Char) : List Char :=
  (s.reverse.dropWhile isWhiteSpace).reverse

/-- The method `String.prototype.trim`. -/
def trim (s : String) : String :=
  ⟨trimEnd (trimStart s.data)⟩

/-- The test `!s` on a string: only the empty string is falsy. -/
def isFalsy (s : String) : Bool :=
  s.data.isEmpty

/-! ## Contact form -/

/-- A form control: its current `value` and the default value that
`contactForm.reset()` puts back. -/
structure Field where
  value : String
  defaultValue : String
  deriving DecidableEq

/-- The submit button: `textContent` and `disabled`. -/
structure Button where
  textContent : String
  disabled : Bool
  deriving DecidableEq

/-- The element `formStatus`: `textContent`, `className` and `style.display`. -/
structure StatusBanner where
  textContent : String
  className : String
  display : String
  deriving DecidableEq

/-- One call of `fetch`: the URL, the method and the entries of the body. -/
structure FetchRequest where
  url : String
  method : String
  body : List (String × String)
  deriving DecidableEq

/-- The part of the page the submit handler and `showFormStatus` touch.
`formStatus` is `none` when the page has no such element; `fetchLog` lists the
calls of `fetch` made so far; `timers` holds the due time of every pending
`setTimeout` callback (each one hides the banner) and `clock` the current time,
both in ms; `consoleErrors` counts the calls of `console.error`. -/
structure Page where
  name : Field
  email : Field
  message : Field
  submitBtn : Button
  formStatus : Option StatusBanner
  fetchLog : List FetchRequest
  clock : Nat
  timers : List Nat
  consoleErrors : Nat
  deriving DecidableEq

/-- What `data.message` evaluates to on a parsed body that is not `null`:
no such property, a string, a value of another type whose conversion to a
string succeeds (given by its truthiness and by what the template literal
prints for it), or an object or array whose conversion to a string throws a
TypeError, such as an object with a `toString` entry that is not a function. -/
inductive MessageValue where
  | undefined
  | string (s : String)
  | other (truthy : Bool) (printed : String)
  | unprintable
  deriving DecidableEq

/-- The value of `await response.json()` when the body parses: JSON `null`,
or any other value with what its property `message` holds. -/
inductive JsonData where
  | null
  | value (message : MessageValue)
  deriving DecidableEq

/-- How `await response.json()` settles: the promise rejects on a body that is
not JSON, or it yields the parsed value. -/
inductive JsonOutcome where
  | malformed
  | parsed (data : JsonData)
  deriving DecidableEq

/-- How `await fetch(...)` settles: the promise rejects (no response), or it
yields a response with its `ok` flag and body. -/
inductive FetchOutcome where
  | rejected
  | response (ok : Bool) (body : JsonOutcome)
  deriving DecidableEq

/-- Truthiness of `data.message`, as the operator `||` sees it. -/
def MessageValue.truthy : MessageValue → Bool
  | .undefined => false
  | .string s => !isFalsy s
  | .other t _ => t
  | .unprintable => true

/-- What the template literal prints for `data.message`; `none` when the
conversion to a string throws. -/
def MessageValue.printed : MessageValue → Option String
  | .undefined => some "undefined"
  | .string s => some s
  | .other _ r => some r
  | .unprintable => none

/-- The template literal of lines 266-269: "Error: " followed by the printed
form of `data.message || "Unable to send message."`; `none` when evaluating it
throws. -/
def errorText (m : MessageValue) : Option String :=
  (if m.truthy then m.printed else some "Unable to send message.").map
    (fun text => "Error: " ++ text)

/-- A statement of the handler, as a change of the page. -/
abbrev Step := Page → Page

/-- The function `showFormStatus` (lines 281-293). -/
def showFormStatus (message type : String) : Step := fun p =>
  match p.formStatus with
  | none => p
  | some _ =>
    let p1 := { p with formStatus := some ⟨message, "form-status " ++ type, "block"⟩ }
    if type = "success" then { p1 with timers := p1.timers ++ [p1.clock + 6000] } else p1

/-- Assignment to `submitBtn.textContent`. -/
def setLabel (text : String) : Step := fun p =>
  { p with submitBtn := { p.submitBtn with textContent := text } }

/-- Assignment to `submitBtn.disabled`. -/
def setDisabled (b : Bool) : Step := fun p =>
  { p with submitBtn := { p.submitBtn with disabled := b } }

/-- The call of `fetch`. -/
def issueFetch (req : FetchRequest) : Step := fun p =>
  { p with fetchLog := p.fetchLog ++ [req] }

/-- The call of `console.error`. -/
def consoleError : Step := fun p =>
  { p with consoleErrors := p.consoleErrors + 1 }

/-- The call `contactForm.reset()`: every control returns to its default. -/
def resetForm : Step := fun p =>
  { p with
    name := { p.name with value := p.name.defaultValue }
    email := { p.email with value := p.email.defaultValue }
    message := { p.message with value := p.message.defaultValue } }

/-- The entries of `new FormData(contactForm)`: the current, untrimmed values of
the three controls, under the names of their ids. -/
def formEntries (p : Page) : List (String × String) :=
  [("name", p.name.value), ("email", p.email.value), ("message", p.message.value)]

/-- The request of lines 248-258. -/
def submitRequest (p : Page) : FetchRequest :=
  { url := "https://api.web3forms.com/submit"
    method := "POST"
    body := formEntries p ++ [("access_key", "cd3a30fc-fc19-4a67-8152-3c602c3e4d46")] }

/-- The `catch` block (lines 271-273). -/
def catchBlock : List Step :=
  [consoleError, showFormStatus "Something went wrong. Please try again." "error"]

/-- The statements run after the call of `fetch` and before `finally`: the rest
of the `try` block, or of it up to the throwing point followed by the `catch`
block. `response.json()` is awaited before `response.ok` is looked at,
`data.message` throws on `null`, and the template literal throws on a message
that cannot be converted to a string. -/
def afterFetch : FetchOutcome → List Step
  | .rejected => catchBlock
  | .response _ .malformed => catchBlock
  | .response true (.parsed _) =>
    [showFormStatus "Success! Your message has been sent." "success", resetForm]
  | .response false (.parsed .null) => catchBlock
  | .response false (.parsed (.value m)) =>
    match errorText m with
    | some text => [showFormStatus text "error"]
    | none => catchBlock

/-- The statements with an effect that the submit handler (lines 226-278) runs,
in order, on page `p` when the network answers with `net`. -/
def submitSteps (p : Page) (net : FetchOutcome) : List Step :=
  let name := trim p.name.value
  let email := trim p.email.value
  let message := trim p.message.value
  let originalText := p.submitBtn.textContent
  if isFalsy name || isFalsy email || isFalsy message then
    [showFormStatus "Please complete all required fields." "error"]
  else if !emailRegex.test email.data then
    [showFormStatus "Please enter a valid email address." "error"]
  else
    [setLabel "Sending...", setDisabled true, issueFetch (submitRequest p)]
      ++ afterFetch net
      ++ [setLabel originalText, setDisabled false]

/-- The page after each of the given statements, in order. -/
def runSteps (p : Page) : List Step → List Page
  | [] => []
  | f :: fs => f p :: runSteps (f p) fs

/-- The page after each statement of one run of the submit handler. -/
def submitTrace (p : Page) (net : FetchOutcome) : List Page :=
  runSteps p (submitSteps p net)

/-- The page when the submit handler has finished. -/
def submitHandler (p : Page) (net : FetchOutcome) : Page :=
  (submitSteps p net).foldl (fun q f => f q) p

/-- Time passes: the clock advances by `ms`, and if a pending timer is due its
callback runs (`formStatus.style.display = "none"`) and it is dropped. -/
def elapse (ms : Nat) (p : Page) : Page :=
  let now := p.clock + ms
  { p with
    clock := now
    timers := p.timers.filter (fun due => decide (now < due))
    formStatus :=
      if p.timers.any (fun due => decide (due ≤ now)) then
        p.formStatus.map (fun b => { b with display := "none" })
      else p.formStatus }

/-- What happens to the form: the user edits the three fields, a submit event
arrives (with the way the network will answer), or time passes. -/
inductive FormEvent where
  | input (name email message : String)
  | submit (net : FetchOutcome)
  | wait (ms : Nat)
  deriving DecidableEq

/-- One form event applied to the page. -/
def formStep (p : Page) : FormEvent → Page
  | .input n e m =>
    { p with
      name := { p.name with value := n }
      email := { p.email with value := e }
      message := { p.message with value := m } }
  | .submit net => submitHandler p net
  | .wait ms => elapse ms p

/-- The page after a sequence of form events, oldest first. -/
def formRun (p : Page) (evs : List FormEvent) : Page :=
  evs.foldl formStep p

/-- The inputs pass validation: the three trimmed values are non-empty and the
trimmed email has the shape `u@v.w`. -/
def ValidInput (p : Page) : Prop :=
  trim p.name.value ≠ "" ∧ trim p.email.value ≠ "" ∧ trim p.message.value ≠ "" ∧
    EmailShaped (trim p.email.value).data

/-- A page for concrete instances: the three fields hold the given values and
have empty defaults, the submit control reads "Send Message" and is enabled, the
status banner exists and is hidden, nothing has happened yet. -/
def examplePage (name email message : String) : Page :=
  { name := ⟨name, ""⟩
    email := ⟨email, ""⟩
    message := ⟨message, ""⟩
    submitBtn := ⟨"Send Message", false⟩
    formStatus := some ⟨"", "form-status", "none"⟩
    fetchLog := []
    clock := 0
    timers := []
    consoleErrors := 0 }

/-! ## Counter animation -/

/-- What the animation does to the outside: a write of the counter's
`textContent`, or a call of `requestAnimationFrame(updateCounter)`. -/
inductive CounterEffect where
  | setText (v : Int)
  | requestFrame
  deriving DecidableEq

/-- The closure `updateCounter` (lines 167-175) run until it stops asking for a
frame; every pass through the body uses one unit of `fuel`. JavaScript numbers
are rationals rounded by `rnd` after each operation. -/
def updateCounter (rnd : ℚ → ℚ) (target : Int) (increment : ℚ) :
    Nat → ℚ → Option (List CounterEffect)
  | 0, _ => none
  | fuel + 1, current =>
    let current := rnd (current + increment)
    if current < target then
      (updateCounter rnd target increment fuel current).map
        (fun rest => .setText ⌊current⌋ :: .requestFrame :: rest)
    else some [.setText target]

/-- The body of the intersection callback for one counter (lines 162-177):
`duration / 16` is 125 exactly, `increment` is the rounded quotient, `current`
starts at 0. -/
def animateCounter (rnd : ℚ → ℚ) (target : Int) (fuel : Nat) : Option (List CounterEffect) :=
  let duration : ℚ := 2000
  let increment := rnd (target / (duration / 16))
  updateCounter rnd target increment fuel 0

/-- The effects of an animation that shows the values `vs` on successive
frames: each value is written and a frame is requested. -/
def frames (vs : List Int) : List CounterEffect :=
  vs.flatMap (fun v => [.setText v, .requestFrame])

/-- The rounding of binary64 arithmetic in its normal range: the result is
within relative error `2 ^ (-53)` of the exact value. Exact arithmetic
(`rnd = id`) is one such rounding. -/
def Binary64Rounding (rnd : ℚ → ℚ) : Prop :=
  ∀ x : ℚ, |rnd x - x| ≤ |x| / 2 ^ 53

/-! ## Theorems -/

theorem menuStep_consistent (m : Menu) (e : MenuEvent) (h : MenuConsistent m) :
    MenuConsistent (menuStep m e) := by
  obtain ⟨h1, h2, h3⟩ := h
  cases e with
  | toggle =>
    cases hb : m.btnActive <;> cases hm : m.menuActive <;>
      simp_all [menuStep, toggleClick, MenuConsistent]
  | navLink => simp [menuStep, linkClick, MenuConsistent]
  | key k =>
    by_cases hk : (k = "Escape" && m.menuActive) = true
    · simp [menuStep, keydown, hk, MenuConsistent]
    · simp only [menuStep, keydown, hk]
      exact ⟨h1, h2, h3⟩

theorem menuRun_consistent (evs : List MenuEvent) :
    ∀ m : Menu, MenuConsistent m → MenuConsistent (menuRun m evs) := by
  induction evs with
  | nil => intro m h; exact h
  | cons e es ih =>
    intro m h
    exact ih (menuStep m e) (menuStep_consistent m e h)

theorem consistent_of_closed (m : Menu) (h : ReflectionsClosed m) : MenuConsistent m := by
  obtain ⟨h1, h2, h3⟩ := h
  refine ⟨by simp [h1, h2], ?_, by simp [h1]⟩
  simp [h1, h3]

/-- C9: in every menu state reachable from a closed initial state by toggle
clicks, nav-link clicks and key presses, the panel class, the button class and
`aria-expanded` agree, and an open menu has `aria-hidden` "false" and the body
scroll locked. -/
theorem menu_reflections_agree (m : Menu) (evs : List MenuEvent) (h : ReflectionsClosed m) :
    ((menuRun m evs).menuActive = true ↔ (menuRun m evs).btnActive = true) ∧
    ((menuRun m evs).btnActive = true ↔ (menuRun m evs).ariaExpanded = some "true") ∧
    ((menuRun m evs).btnActive = true →
      (menuRun m evs).ariaHidden = some "false" ∧ (menuRun m evs).bodyOverflow = "hidden") :=
  menuRun_consistent evs m (consistent_of_closed m h)

/-- C10, as stated, fails: a closed menu whose panel has no `aria-hidden`
attribute (the button has `aria-expanded` "false") ends, after two clicks on
the toggle button, with `aria-hidden` "true". -/
theorem toggle_twice_sets_aria_hidden :
    ReflectionsClosed ⟨false, false, some "false", none, "", 0⟩ ∧
    (toggleClick (toggleClick ⟨false, false, some "false", none, "", 0⟩)).ariaHidden
      ≠ (⟨false, false, some "false", none, "", 0⟩ : Menu).ariaHidden := by
  decide

/-- C10, amended: from every closed menu state the first click on the toggle
button opens the menu and the second one closes it, leaving `aria-expanded`
"false", `aria-hidden` "true" and the body overflow style empty; these are the
values from before the first click whenever the closed state had them, and then
the whole menu state is as before. -/
theorem toggle_twice_restores (m : Menu) (h : ReflectionsClosed m) :
    (toggleClick m).btnActive = true ∧
    (toggleClick (toggleClick m)).btnActive = false ∧
    (toggleClick (toggleClick m)).ariaExpanded = some "false" ∧
    (toggleClick (toggleClick m)).ariaHidden = some "true" ∧
    (toggleClick (toggleClick m)).bodyOverflow = "" ∧
    (m.ariaExpanded = some "false" → m.ariaHidden = some "true" → m.bodyOverflow = "" →
      (toggleClick (toggleClick m)).ariaExpanded = m.ariaExpanded ∧
      (toggleClick (toggleClick m)).ariaHidden = m.ariaHidden ∧
      (toggleClick (toggleClick m)).bodyOverflow = m.bodyOverflow ∧
      toggleClick (toggleClick m) = m) := by
  obtain ⟨hb, hm, _⟩ := h
  refine ⟨by simp [toggleClick, hb], by simp [toggleClick, hb], by simp [toggleClick, hb],
    by simp [toggleClick, hb], by simp [toggleClick, hb], ?_⟩
  intro he hh ho
  have hfull : toggleClick (toggleClick m) = m := by
    cases m
    simp_all [toggleClick]
  rw [hfull]
  exact ⟨rfl, rfl, rfl, rfl⟩

/-- Witness of `toggle_twice_restores` at the closed state with the closed
attribute values. -/
theorem toggle_twice_restores_witness :
    toggleClick (toggleClick ⟨false, false, some "false", some "true", "", 0⟩)
      = ⟨false, false, some "false", some "true", "", 0⟩ :=
  ((toggle_twice_restores ⟨false, false, some "false", some "true", "", 0⟩
    (by decide)).2.2.2.2.2 rfl rfl rfl).2.2.2

/-- Witness of `menu_reflections_agree`: a page whose markup sets no aria
attribute, after toggle, Escape, toggle. -/
theorem menu_reflections_agree_witness :
    (menuRun ⟨false, false, none, none, "", 0⟩ [.toggle, .key "Escape", .toggle]).btnActive = true
      ↔ (menuRun ⟨false, false, none, none, "", 0⟩
          [.toggle, .key "Escape", .toggle]).ariaExpanded = some "true" :=
  (menu_reflections_agree ⟨false, false, none, none, "", 0⟩ [.toggle, .key "Escape", .toggle]
    (by decide)).2.1

/-! ### Active navigation state -/

theorem markLinks_markLinks (a b : Option String) (links : List NavLink) :
    markLinks a (markLinks b links) = markLinks a links := by
  unfold markLinks
  rw [List.map_map]
  apply List.map_congr_left
  intro l _
  by_cases hb : l.href = some (fragment b) <;> simp [hb]

theorem foldl_mark_eq (pos : Int) (sections : List Section) (links : List NavLink) :
    sections.foldl (fun links s => if containsProbe pos s then markLinks s.id links else links)
        links
      = match (sections.filter (containsProbe pos)).getLast? with
        | none => links
        | some s => markLinks s.id links := by
  induction sections using List.reverseRecOn with
  | nil => simp
  | append_singleton init s ih =>
    rw [List.foldl_append, List.filter_append]
    by_cases hs : containsProbe pos s = true
    · simp only [List.foldl_cons, List.foldl_nil, hs, if_true, List.filter_cons_of_pos,
        List.filter_nil, List.getLast?_append, List.getLast?_singleton, Option.or_some]
      rw [ih]
      cases (List.filter (containsProbe pos) init).getLast? with
      | none => rfl
      | some t => exact markLinks_markLinks _ _ _
    · have hs' : containsProbe pos s = false := by simpa using hs
      simp [hs', ih]

theorem updateActiveNav_eq (y : Int) (nav : Option Int) (sections : List Section)
    (links : List NavLink) :
    updateActiveNav y nav sections links
      = match (matching y nav sections).getLast? with
        | none => links
        | some s => markLinks s.id links :=
  foldl_mark_eq _ sections links

theorem mem_markLinks_active (a : Option String) (links : List NavLink) (l : NavLink)
    (hl : l ∈ markLinks a links) : l.active = true ↔ l.href = some (fragment a) := by
  unfold markLinks at hl
  obtain ⟨l0, _, rfl⟩ := List.mem_map.1 hl
  by_cases h : l0.href = some (fragment a) <;> simp [h]

theorem activeCount_markLinks_le (a : Option String) (links : List NavLink)
    (hnd : (links.map NavLink.href).Nodup) : activeCount (markLinks a links) ≤ 1 := by
  induction links with
  | nil => simp [activeCount, markLinks]
  | cons l ls ih =>
    have hnd' : l.href ∉ ls.map NavLink.href ∧ (ls.map NavLink.href).Nodup :=
      List.nodup_cons.1 (by simpa only [List.map_cons] using hnd)
    have ih' := ih hnd'.2
    by_cases h : l.href = some (fragment a)
    · have hz : activeCount (markLinks a ls) = 0 := by
        unfold activeCount
        rw [List.countP_eq_zero]
        intro x hx
        have hxa := mem_markLinks_active a ls x hx
        intro hact
        have hxh := hxa.1 (by simpa using hact)
        obtain ⟨x0, hx0, hx0e⟩ := List.mem_map.1 (by unfold markLinks at hx; exact hx)
        have : x0.href = some (fragment a) := by
          by_cases hc : x0.href = some (fragment a)
          · exact hc
          · simp [hc] at hx0e
            rw [← hx0e] at hxh
            exact absurd hxh hc
        exact hnd'.1 (List.mem_map.2 ⟨x0, hx0, this.trans h.symm⟩)
      have : activeCount (markLinks a (l :: ls)) = 1 + activeCount (markLinks a ls) := by
        simp [activeCount, markLinks, h, List.countP_cons, Nat.add_comm]
      omega
    · have : activeCount (markLinks a (l :: ls)) = activeCount (markLinks a ls) := by
        simp [activeCount, markLinks, h, List.countP_cons]
      omega

/-- C7, as stated, fails: with one section spanning 0..500 and its link marked
active, the probe 600 + 80 + 100 = 780 lies in no section, and after
`updateActiveNav` the link is still marked. -/
theorem gap_keeps_stale_marker :
    (∀ s ∈ [(⟨0, 500, some "home"⟩ : Section)],
        containsProbe (scrollPosition 600 (some 80)) s = false) ∧
    ∃ l ∈ updateActiveNav 600 (some 80) [⟨0, 500, some "home"⟩] [⟨some "#home", true⟩],
      l.active = true := by
  decide

/-- C7, amended: when the probe lies in no section's range, `updateActiveNav`
changes no link; every link is marked after the call exactly if it was marked
before. -/
theorem gap_leaves_links_unchanged (y : Int) (nav : Option Int) (sections : List Section)
    (links : List NavLink)
    (hgap : ∀ s ∈ sections, containsProbe (scrollPosition y nav) s = false) :
    updateActiveNav y nav sections links = links := by
  rw [updateActiveNav_eq]
  have : matching y nav sections = [] := by
    unfold matching
    rw [List.filter_eq_nil_iff]
    intro s hs
    simp [hgap s hs]
  rw [this]
  rfl

/-- Witness of `gap_leaves_links_unchanged`: probe 780, sections 0..500 and
900..1200, two links of which one is marked. -/
theorem gap_leaves_links_unchanged_witness :
    updateActiveNav 600 (some 80) [⟨0, 500, some "home"⟩, ⟨900, 300, some "about"⟩]
        [⟨some "#home", true⟩, ⟨some "#about", false⟩]
      = [⟨some "#home", true⟩, ⟨some "#about", false⟩] :=
  gap_leaves_links_unchanged 600 (some 80) [⟨0, 500, some "home"⟩, ⟨900, 300, some "about"⟩]
    [⟨some "#home", true⟩, ⟨some "#about", false⟩] (by decide)

/-- C8, as stated, fails: two nav links with the same href (a header and a
footer link to the same section) are both marked by one call. -/
theorem duplicate_href_marks_two :
    activeCount (updateActiveNav 0 (some 80)
      [⟨0, 500, some "home"⟩, ⟨500, 700, some "about"⟩]
      [⟨some "#home", false⟩, ⟨some "#about", false⟩, ⟨some "#home", false⟩]) = 2 := by
  decide

/-- C8, amended: when the probe lies in at least one section, the links marked
after `updateActiveNav` are exactly those whose href is "#" followed by the id
of the last such section in document order, and at most one link is marked when
no two links share an href; when no section contains the probe the links are
left as they were. With offset 0, nav height 80 and sections 0..500 and
500..1200 only the first section's link is marked. -/
theorem active_links_of_last_match (y : Int) (nav : Option Int) (sections : List Section)
    (links : List NavLink) :
    (∀ last, (matching y nav sections).getLast? = some last →
      updateActiveNav y nav sections links = markLinks last.id links ∧
      (∀ l ∈ updateActiveNav y nav sections links,
        l.active = true ↔ l.href = some (fragment last.id)) ∧
      ((links.map NavLink.href).Nodup →
        activeCount (updateActiveNav y nav sections links) ≤ 1)) ∧
    (matching y nav sections = [] → updateActiveNav y nav sections links = links) ∧
    updateActiveNav 0 (some 80) [⟨0, 500, some "home"⟩, ⟨500, 700, some "about"⟩]
        [⟨some "#home", false⟩, ⟨some "#about", true⟩]
      = [⟨some "#home", true⟩, ⟨some "#about", false⟩] := by
  refine ⟨?_, ?_, by decide⟩
  · intro last hlast
    have heq : updateActiveNav y nav sections links = markLinks last.id links := by
      rw [updateActiveNav_eq, hlast]
    refine ⟨heq, ?_, ?_⟩
    · intro l hl
      rw [heq] at hl
      exact mem_markLinks_active _ _ _ hl
    · intro hnd
      rw [heq]
      exact activeCount_markLinks_le _ _ hnd
  · intro hnone
    rw [updateActiveNav_eq, hnone]
    rfl

/-- Witness of `active_links_of_last_match`: the spec's example, whose last
matching section is the first one. -/
theorem active_links_of_last_match_witness :
    activeCount (updateActiveNav 0 (some 80) [⟨0, 500, some "home"⟩, ⟨500, 700, some "about"⟩]
      [⟨some "#home", false⟩, ⟨some "#about", true⟩]) ≤ 1 :=
  ((active_links_of_last_match 0 (some 80) [⟨0, 500, some "home"⟩, ⟨500, 700, some "about"⟩]
    [⟨some "#home", false⟩, ⟨some "#about", true⟩]).1 ⟨0, 500, some "home"⟩ (by decide)).2.2
    (by decide)

/-! ### The email pattern -/

namespace Regex

theorem nullable_iff (r : Regex) : r.nullable = true ↔ Matches r [] := by
  induction r with
  | nothing => simp only [nullable]; constructor
               · intro h; cases h
               · intro h; cases h
  | epsilon => exact ⟨fun _ => .epsilon, fun _ => rfl⟩
  | cls p => simp only [nullable]; constructor
             · intro h; cases h
             · intro h; cases h
  | alt r s ihr ihs =>
    simp only [nullable, Bool.or_eq_true, ihr, ihs]
    constructor
    · rintro (h | h)
      · exact .altLeft _ _ _ h
      · exact .altRight _ _ _ h
    · intro h
      cases h with
      | altLeft _ _ _ h => exact Or.inl h
      | altRight _ _ _ h => exact Or.inr h
  | seq r s ihr ihs =>
    simp only [nullable, Bool.and_eq_true, ihr, ihs]
    constructor
    · rintro ⟨h1, h2⟩
      exact .seq r s [] [] h1 h2
    · intro h
      generalize hl : ([] : List Char) = l at h
      cases h with
      | seq _ _ x y hx hy =>
        obtain ⟨rfl, rfl⟩ := List.append_eq_nil.1 hl.symm
        exact ⟨hx, hy⟩
  | star r _ => exact ⟨fun _ => .starNil r, fun _ => rfl⟩

theorem matches_deriv_of_cons (r : Regex) (l : List Char) (h : Matches r l) :
    ∀ c x, l = c :: x → Matches (r.deriv c) x := by
  induction h with
  | epsilon => intro c x hl; cases hl
  | cls p d hp =>
    intro c x hl
    cases hl
    simp only [deriv, hp, if_true]
    exact .epsilon
  | altLeft r s y _ ih => intro c x hl; exact .altLeft _ _ _ (ih c x hl)
  | altRight r s y _ ih => intro c x hl; exact .altRight _ _ _ (ih c x hl)
  | seq r s a b ha hb iha ihb =>
    intro c x hl
    cases a with
    | nil =>
      have hn : r.nullable = true := (nullable_iff r).2 ha
      simp only [deriv, hn, if_true]
      exact .altRight _ _ _ (ihb c x hl)
    | cons d a' =>
      simp only [List.cons_append, List.cons.injEq] at hl
      obtain ⟨rfl, rfl⟩ := hl
      have h1 : Matches (seq (r.deriv d) s) (a' ++ b) := .seq _ _ _ _ (iha d a' rfl) hb
      by_cases hn : r.nullable = true
      · simp only [deriv, hn, if_true]
        exact .altLeft _ _ _ h1
      · simp only [deriv, hn]
        exact h1
  | starNil r => intro c x hl; cases hl
  | starCons r a b ha hb iha ihb =>
    intro c x hl
    cases a with
    | nil => exact ihb c x hl
    | cons d a' =>
      simp only [List.cons_append, List.cons.injEq] at hl
      obtain ⟨rfl, rfl⟩ := hl
      exact .seq _ _ _ _ (iha d a' rfl) hb

theorem matches_cons_of_deriv (r : Regex) : ∀ (c : Char) (x : List Char),
    Matches (r.deriv c) x → Matches r (c :: x) := by
  induction r with
  | nothing => intro c x h; cases h
  | epsilon => intro c x h; cases h
  | cls p =>
    intro c x h
    by_cases hp : p c = true
    · simp only [deriv, hp, if_true] at h
      cases h
      exact .cls p c hp
    · simp only [deriv, hp] at h
      cases h
  | alt r s ihr ihs =>
    intro c x h
    cases h with
    | altLeft _ _ _ h => exact .altLeft _ _ _ (ihr c x h)
    | altRight _ _ _ h => exact .altRight _ _ _ (ihs c x h)
  | seq r s ihr ihs =>
    intro c x h
    have key : ∀ y, Matches (seq (r.deriv c) s) y → Matches (seq r s) (c :: y) := by
      intro y hy
      cases hy with
      | seq _ _ a b ha hb => exact .seq r s (c :: a) b (ihr c a ha) hb
    by_cases hn : r.nullable = true
    · simp only [deriv, hn, if_true] at h
      cases h with
      | altLeft _ _ _ h => exact key x h
      | altRight _ _ _ h => exact .seq r s [] (c :: x) ((nullable_iff r).1 hn) (ihs c x h)
    · simp only [deriv, hn] at h
      exact key x h
  | star r ih =>
    intro c x h
    cases h with
    | seq _ _ a b ha hb => exact .starCons r (c :: a) b (ih c a ha) hb

theorem test_iff (s : List Char) : ∀ r : Regex, r.test s = true ↔ Matches r s := by
  induction s with
  | nil => intro r; exact nullable_iff r
  | cons c x ih =>
    intro r
    have : r.test (c :: x) = (r.deriv c).test x := rfl
    rw [this, ih]
    exact ⟨matches_cons_of_deriv r c x, fun h => matches_deriv_of_cons r _ h c x rfl⟩

theorem matches_star_cls (p : Char → Bool) (l : List Char) :
    Matches (star (cls p)) l ↔ ∀ c ∈ l, p c = true := by
  constructor
  · intro h
    generalize hr : star (cls p) = r at h
    induction h with
    | epsilon => cases hr
    | cls => cases hr
    | altLeft => cases hr
    | altRight => cases hr
    | seq => cases hr
    | starNil => simp
    | starCons r a b ha _ _ ihb =>
      cases hr
      intro c hc
      rcases List.mem_append.1 hc with hc | hc
      · cases ha with
        | cls _ d hd =>
          rw [List.mem_singleton.1 hc]; exact hd
      · exact ihb rfl c hc
  · intro h
    induction l with
    | nil => exact .starNil _
    | cons c x ih =>
      exact .starCons _ [c] x (.cls p c (h c (List.mem_cons_self _ _)))
        (ih fun d hd => h d (List.mem_cons_of_mem _ hd))

theorem matches_plus_cls (p : Char → Bool) (l : List Char) :
    Matches (plus (cls p)) l ↔ l ≠ [] ∧ ∀ c ∈ l, p c = true := by
  constructor
  · intro h
    cases h with
    | seq _ _ a b ha hb =>
      cases ha with
      | cls _ c hc =>
        refine ⟨by simp, ?_⟩
        intro d hd
        rcases List.mem_cons.1 hd with rfl | hd
        · exact hc
        · exact (matches_star_cls p b).1 hb d hd
  · rintro ⟨hne, h⟩
    cases l with
    | nil => exact absurd rfl hne
    | cons c x =>
      exact .seq _ _ [c] x (.cls p c (h c (List.mem_cons_self _ _)))
        ((matches_star_cls p x).2 fun d hd => h d (List.mem_cons_of_mem _ hd))

theorem matches_chr_seq (c : Char) (r : Regex) (l : List Char) :
    Matches (seq (chr c) r) l ↔ ∃ y, l = c :: y ∧ Matches r y := by
  constructor
  · intro h
    cases h with
    | seq _ _ a b ha hb =>
      cases ha with
      | cls _ d hd =>
        have : d = c := by simpa using hd
        exact ⟨b, by simp [this], hb⟩
  · rintro ⟨y, rfl, hy⟩
    exact .seq _ _ [c] y (.cls _ c (by simp)) hy

theorem matches_seq (r s : Regex) (l : List Char) :
    Matches (seq r s) l ↔ ∃ a b, l = a ++ b ∧ Matches r a ∧ Matches s b := by
  constructor
  · intro h
    cases h with
    | seq _ _ a b ha hb => exact ⟨a, b, rfl, ha, hb⟩
  · rintro ⟨a, b, rfl, ha, hb⟩
    exact .seq _ _ _ _ ha hb

theorem matches_plus_cls_seq (p : Char → Bool) (r : Regex) (l : List Char) :
    Matches (seq (plus (cls p)) r) l ↔
      ∃ a b, l = a ++ b ∧ (a ≠ [] ∧ ∀ c ∈ a, p c = true) ∧ Matches r b := by
  rw [matches_seq]
  simp only [matches_plus_cls]

end Regex

theorem notSpaceAt_iff (c : Char) :
    notSpaceAt c = true ↔ (isWhiteSpace c = false ∧ c ≠ '@') := by
  simp [notSpaceAt]

theorem emailRegex_test_iff (e : List Char) : emailRegex.test e = true ↔ EmailShaped e := by
  rw [Regex.test_iff]
  unfold emailRegex EmailShaped
  simp only [Regex.matches_plus_cls_seq, Regex.matches_chr_seq, Regex.matches_plus_cls,
    notSpaceAt_iff]
  constructor
  · rintro ⟨u, _, rfl, ⟨hu, hu'⟩, y, rfl, v, _, rfl, ⟨hv, hv'⟩, z, rfl, hw, hw'⟩
    exact ⟨u, v, z, hu, hv, hw, hu', hv', hw', rfl⟩
  · rintro ⟨u, v, w, hu, hv, hw, hu', hv', hw', rfl⟩
    exact ⟨u, _, rfl, ⟨hu, hu'⟩, _, rfl, v, _, rfl, ⟨hv, hv'⟩, w, rfl, hw, hw'⟩

/-! ### Contact form -/

theorem isFalsy_iff (s : String) : isFalsy s = true ↔ s = "" := by
  unfold isFalsy
  rw [List.isEmpty_iff]
  constructor
  · intro h
    exact String.ext h
  · intro h
    rw [h]

theorem showFormStatus_error (msg : String) (p : Page) :
    showFormStatus msg "error" p
      = { p with formStatus := p.formStatus.map (fun _ => ⟨msg, "form-status error", "block"⟩) } := by
  unfold showFormStatus
  cases h : p.formStatus with
  | none => cases p; simp_all
  | some b =>
    have : ("error" = "success") = False := by decide
    simp [this]

theorem showFormStatus_success (msg : String) (p : Page) :
    showFormStatus msg "success" p
      = match p.formStatus with
        | none => p
        | some _ =>
          { p with
            formStatus := some ⟨msg, "form-status success", "block"⟩
            timers := p.timers ++ [p.clock + 6000] } := by
  unfold showFormStatus
  cases h : p.formStatus with
  | none => rfl
  | some b => simp

theorem submitSteps_of_empty (p : Page) (net : FetchOutcome)
    (h : trim p.name.value = "" ∨ trim p.email.value = "" ∨ trim p.message.value = "") :
    submitSteps p net = [showFormStatus "Please complete all required fields." "error"] := by
  have : (isFalsy (trim p.name.value) || isFalsy (trim p.email.value)
      || isFalsy (trim p.message.value)) = true := by
    simp only [Bool.or_eq_true, isFalsy_iff]
    tauto
  simp only [submitSteps, this, if_true]

theorem submitSteps_of_unshaped (p : Page) (net : FetchOutcome)
    (hn : trim p.name.value ≠ "") (he : trim p.email.value ≠ "") (hm : trim p.message.value ≠ "")
    (hs : ¬ EmailShaped (trim p.email.value).data) :
    submitSteps p net = [showFormStatus "Please enter a valid email address." "error"] := by
  have h1 : (isFalsy (trim p.name.value) || isFalsy (trim p.email.value)
      || isFalsy (trim p.message.value)) = false := by
    have a := mt (isFalsy_iff _).1 hn
    have b := mt (isFalsy_iff _).1 he
    have c := mt (isFalsy_iff _).1 hm
    simp only [Bool.not_eq_true] at a b c
    simp [a, b, c]
  have h2 : emailRegex.test (trim p.email.value).data = false := by
    have := mt (emailRegex_test_iff _).1 hs
    simpa using this
  simp [submitSteps, h1, h2]

theorem submitSteps_of_valid (p : Page) (net : FetchOutcome) (hv : ValidInput p) :
    submitSteps p net =
      [setLabel "Sending...", setDisabled true, issueFetch (submitRequest p)]
        ++ afterFetch net
        ++ [setLabel p.submitBtn.textContent, setDisabled false] := by
  obtain ⟨hn, he, hm, hs⟩ := hv
  have h1 : (isFalsy (trim p.name.value) || isFalsy (trim p.email.value)
      || isFalsy (trim p.message.value)) = false := by
    have a := mt (isFalsy_iff _).1 hn
    have b := mt (isFalsy_iff _).1 he
    have c := mt (isFalsy_iff _).1 hm
    simp only [Bool.not_eq_true] at a b c
    simp [a, b, c]
  have h2 : emailRegex.test (trim p.email.value).data = true := (emailRegex_test_iff _).2 hs
  simp [submitSteps, h1, h2]

theorem runSteps_append (p : Page) (a b : List Step) :
    runSteps p (a ++ b) = runSteps p a ++ runSteps (a.foldl (fun q f => f q) p) b := by
  induction a generalizing p with
  | nil => rfl
  | cons f fs ih => simp [runSteps, ih]

theorem runSteps_invariant (P : Page → Prop) (steps : List Step)
    (hstep : ∀ f ∈ steps, ∀ q, P q → P (f q)) :
    ∀ p, P p → (∀ q ∈ runSteps p steps, P q) ∧ P (steps.foldl (fun q f => f q) p) := by
  induction steps with
  | nil => intro p hp; exact ⟨by simp [runSteps], hp⟩
  | cons f fs ih =>
    intro p hp
    have hf := hstep f (List.mem_cons_self _ _) p hp
    have := ih (fun g hg => hstep g (List.mem_cons_of_mem _ hg)) (f p) hf
    refine ⟨?_, this.2⟩
    intro q hq
    simp only [runSteps, List.mem_cons] at hq
    rcases hq with rfl | hq
    · exact hf
    · exact this.1 q hq

theorem showFormStatus_keeps (msg type : String) (q : Page) :
    (showFormStatus msg type q).fetchLog = q.fetchLog ∧
    (showFormStatus msg type q).submitBtn = q.submitBtn ∧
    (showFormStatus msg type q).name = q.name ∧
    (showFormStatus msg type q).email = q.email ∧
    (showFormStatus msg type q).message = q.message ∧
    (showFormStatus msg type q).clock = q.clock := by
  unfold showFormStatus
  cases q.formStatus with
  | none => simp
  | some b => by_cases h : type = "success" <;> simp [h]

theorem afterFetch_keeps (net : FetchOutcome) :
    ∀ f ∈ afterFetch net, ∀ q : Page,
      (f q).fetchLog = q.fetchLog ∧ (f q).submitBtn = q.submitBtn := by
  intro f hf q
  have hcatch : ∀ g ∈ catchBlock, ∀ q : Page,
      (g q).fetchLog = q.fetchLog ∧ (g q).submitBtn = q.submitBtn := by
    intro g hg q
    simp only [catchBlock, List.mem_cons, List.mem_singleton, List.not_mem_nil, or_false] at hg
    rcases hg with rfl | rfl
    · simp [consoleError]
    · exact ⟨(showFormStatus_keeps _ _ q).1, (showFormStatus_keeps _ _ q).2.1⟩
  match net, hf with
  | .rejected, hf => exact hcatch f hf q
  | .response true .malformed, hf => exact hcatch f hf q
  | .response false .malformed, hf => exact hcatch f hf q
  | .response false (.parsed .null), hf => exact hcatch f hf q
  | .response true (.parsed _), hf =>
    simp only [afterFetch, List.mem_cons, List.mem_singleton, List.not_mem_nil, or_false] at hf
    rcases hf with rfl | rfl
    · exact ⟨(showFormStatus_keeps _ _ q).1, (showFormStatus_keeps _ _ q).2.1⟩
    · simp [resetForm]
  | .response false (.parsed (.value m)), hf =>
    simp only [afterFetch] at hf
    cases he : errorText m with
    | none =>
      rw [he] at hf
      exact hcatch f hf q
    | some text =>
      rw [he] at hf
      simp only [List.mem_singleton] at hf
      subst hf
      exact ⟨(showFormStatus_keeps _ _ q).1, (showFormStatus_keeps _ _ q).2.1⟩

/-- C1: when one of the three trimmed field values is empty, the submit handler
runs one statement only, the call of `showFormStatus`: `fetch` is not called,
the submit control is neither disabled nor relabelled, and the status banner
(when the page has one) shows "Please complete all required fields." with type
"error". -/
theorem empty_field_aborts (p : Page) (net : FetchOutcome)
    (h : trim p.name.value = "" ∨ trim p.email.value = "" ∨ trim p.message.value = "") :
    submitTrace p net = [submitHandler p net] ∧
    (submitHandler p net).fetchLog = p.fetchLog ∧
    (submitHandler p net).submitBtn = p.submitBtn ∧
    (submitHandler p net).formStatus = p.formStatus.map
      (fun _ => ⟨"Please complete all required fields.", "form-status error", "block"⟩) ∧
    (submitHandler p net).timers = p.timers := by
  simp only [submitTrace, submitHandler, submitSteps_of_empty p net h, runSteps, List.foldl_cons,
    List.foldl_nil, showFormStatus_error]
  simp

/-- Witness of `empty_field_aborts`: a message of blanks only. -/
theorem empty_field_aborts_witness :
    (submitHandler
      ⟨⟨"Ada", ""⟩, ⟨"ada@example.org", ""⟩, ⟨"  ", ""⟩, ⟨"Send Message", false⟩,
        some ⟨"", "form-status", "none"⟩, [], 0, [], 0⟩ .rejected).fetchLog = [] :=
  (empty_field_aborts
    ⟨⟨"Ada", ""⟩, ⟨"ada@example.org", ""⟩, ⟨"  ", ""⟩, ⟨"Send Message", false⟩,
      some ⟨"", "form-status", "none"⟩, [], 0, [], 0⟩ .rejected
    (Or.inr (Or.inr (by decide)))).2.1

/-- C2: with three non-empty trimmed values, the email check rejects the trimmed
email exactly when it is not of the shape `u@v.w`; on a rejected email the
handler runs one statement only, the call of `showFormStatus`: `fetch` is not
called and the status banner (when the page has one) shows "Please enter a
valid email address." with type "error". -/
theorem unshaped_email_aborts (p : Page) (net : FetchOutcome)
    (hn : trim p.name.value ≠ "") (he : trim p.email.value ≠ "")
    (hm : trim p.message.value ≠ "") :
    (emailRegex.test (trim p.email.value).data = false ↔
      ¬ EmailShaped (trim p.email.value).data) ∧
    (¬ EmailShaped (trim p.email.value).data →
      submitTrace p net = [submitHandler p net] ∧
      (submitHandler p net).fetchLog = p.fetchLog ∧
      (submitHandler p net).submitBtn = p.submitBtn ∧
      (submitHandler p net).formStatus = p.formStatus.map
        (fun _ => ⟨"Please enter a valid email address.", "form-status error", "block"⟩) ∧
      (submitHandler p net).timers = p.timers) := by
  constructor
  · rw [← emailRegex_test_iff]
    simp
  · intro hs
    simp only [submitTrace, submitHandler, submitSteps_of_unshaped p net hn he hm hs, runSteps,
      List.foldl_cons, List.foldl_nil, showFormStatus_error]
    simp

/-- Witness of `unshaped_email_aborts`: an email without a dot after the "@". -/
theorem unshaped_email_aborts_witness :
    emailRegex.test (trim (Page.email
      ⟨⟨"Ada", ""⟩, ⟨"ada@example", ""⟩, ⟨"Hello", ""⟩, ⟨"Send Message", false⟩,
        some ⟨"", "form-status", "none"⟩, [], 0, [], 0⟩).value).data = false ↔
    ¬ EmailShaped (trim (Page.email
      ⟨⟨"Ada", ""⟩, ⟨"ada@example", ""⟩, ⟨"Hello", ""⟩, ⟨"Send Message", false⟩,
        some ⟨"", "form-status", "none"⟩, [], 0, [], 0⟩).value).data :=
  (unshaped_email_aborts
    ⟨⟨"Ada", ""⟩, ⟨"ada@example", ""⟩, ⟨"Hello", ""⟩, ⟨"Send Message", false⟩,
      some ⟨"", "form-status", "none"⟩, [], 0, [], 0⟩ .rejected
    (by decide) (by decide) (by decide)).1

/-- C3: on inputs that pass validation the handler calls `fetch` exactly once;
the control is disabled and labelled "Sending..." in the state in which the
call is made and in every state from the call until the `finally` block; and
when the handler has finished, whatever the network did, the control is enabled
and carries the label it had when the submit event arrived. The trace splits
into the states before the call, those with the call in flight or answered, and
those of the `finally` block. -/
theorem valid_submission_control (p : Page) (net : FetchOutcome) (hv : ValidInput p) :
    ∃ pre mid post : List Page,
      submitTrace p net = pre ++ mid ++ post ∧
      (∀ q ∈ pre, q.fetchLog = p.fetchLog) ∧
      pre.getLast?.map Page.submitBtn = some ⟨"Sending...", true⟩ ∧
      mid ≠ [] ∧
      (∀ q ∈ mid, q.fetchLog = p.fetchLog ++ [submitRequest p] ∧
        q.submitBtn = ⟨"Sending...", true⟩) ∧
      (∀ q ∈ post, q.fetchLog = p.fetchLog ++ [submitRequest p]) ∧
      post.getLast? = some (submitHandler p net) ∧
      (submitHandler p net).submitBtn = ⟨p.submitBtn.textContent, false⟩ := by
  let q0 := setDisabled true (setLabel "Sending..." p)
  let q1 := issueFetch (submitRequest p) q0
  let q2 := (afterFetch net).foldl (fun q f => f q) q1
  have hinv := runSteps_invariant
    (fun q => q.fetchLog = p.fetchLog ++ [submitRequest p] ∧ q.submitBtn = ⟨"Sending...", true⟩)
    (afterFetch net)
    (fun f hf q hq => by
      obtain ⟨h1, h2⟩ := afterFetch_keeps net f hf q
      exact ⟨h1.trans hq.1, h2.trans hq.2⟩)
    q1 ⟨rfl, rfl⟩
  have htrace : submitTrace p net =
      [setLabel "Sending..." p, q0] ++ (q1 :: runSteps q1 (afterFetch net))
        ++ [setLabel p.submitBtn.textContent q2,
            setDisabled false (setLabel p.submitBtn.textContent q2)] := by
    simp only [submitTrace, submitSteps_of_valid p net hv, runSteps_append, runSteps,
      List.foldl_cons, List.foldl_nil, List.foldl_append]
    simp [q0, q1, q2]
  have hfinal : submitHandler p net
      = setDisabled false (setLabel p.submitBtn.textContent q2) := by
    simp only [submitHandler, submitSteps_of_valid p net hv, List.foldl_cons, List.foldl_nil,
      List.foldl_append, List.cons_append, List.nil_append]
  refine ⟨_, _, _, htrace, ?_, rfl, by simp, ?_, ?_, ?_, ?_⟩
  · intro q hq
    simp only [List.mem_cons, List.mem_singleton, List.not_mem_nil, or_false] at hq
    rcases hq with rfl | rfl <;> rfl
  · intro q hq
    rcases List.mem_cons.1 hq with rfl | hq
    · exact ⟨rfl, rfl⟩
    · exact hinv.1 q hq
  · intro q hq
    simp only [List.mem_cons, List.mem_singleton, List.not_mem_nil, or_false] at hq
    rcases hq with rfl | rfl
    · exact hinv.2.1
    · exact hinv.2.1
  · rw [hfinal]; rfl
  · rw [hfinal]; rfl

theorem examplePage_valid : ValidInput (examplePage " Ada " "ada@example.org" "Hello") :=
  ⟨by decide, by decide, by decide, (emailRegex_test_iff _).1 (by decide)⟩

/-- Witness of `valid_submission_control`: a valid form whose request never
completes. -/
theorem valid_submission_control_witness :
    ∃ pre mid post : List Page,
      submitTrace (examplePage " Ada " "ada@example.org" "Hello") .rejected
        = pre ++ mid ++ post ∧
      (∀ q ∈ pre, q.fetchLog = []) ∧
      pre.getLast?.map Page.submitBtn = some ⟨"Sending...", true⟩ ∧
      mid ≠ [] ∧
      (∀ q ∈ mid, q.fetchLog
          = [] ++ [submitRequest (examplePage " Ada " "ada@example.org" "Hello")] ∧
        q.submitBtn = ⟨"Sending...", true⟩) ∧
      (∀ q ∈ post, q.fetchLog
          = [] ++ [submitRequest (examplePage " Ada " "ada@example.org" "Hello")]) ∧
      post.getLast?
        = some (submitHandler (examplePage " Ada " "ada@example.org" "Hello") .rejected) ∧
      (submitHandler (examplePage " Ada " "ada@example.org" "Hello") .rejected).submitBtn
        = ⟨"Send Message", false⟩ :=
  valid_submission_control (examplePage " Ada " "ada@example.org" "Hello") .rejected
    examplePage_valid

/-- C4, as stated, fails: a valid submission answered by a successful HTTP
response whose body is not JSON ends with the banner of the `catch` block and
with the fields as the user left them. -/
theorem ok_response_without_json :
    ValidInput (examplePage " Ada " "ada@example.org" "Hello") ∧
    (submitHandler (examplePage " Ada " "ada@example.org" "Hello")
        (.response true .malformed)).formStatus
      = some ⟨"Something went wrong. Please try again.", "form-status error", "block"⟩ ∧
    (submitHandler (examplePage " Ada " "ada@example.org" "Hello")
        (.response true .malformed)).message.value = "Hello" ∧
    (submitHandler (examplePage " Ada " "ada@example.org" "Hello")
        (.response true .malformed)).timers = [] :=
  ⟨⟨by decide, by decide, by decide, (emailRegex_test_iff _).1 (by decide)⟩,
    by decide, by decide, by decide⟩

theorem errorText_of_truthy (m : MessageValue) (s : String) (ht : m.truthy = true)
    (hp : m.printed = some s) : errorText m = some ("Error: " ++ s) := by
  simp [errorText, ht, hp]

theorem errorText_of_falsy (m : MessageValue) (ht : m.truthy = false) :
    errorText m = some "Error: Unable to send message." := by
  simp only [errorText, ht, Bool.false_eq_true, if_false, Option.map_some']
  rfl

theorem submitHandler_failure (p : Page) (hv : ValidInput p) (m : MessageValue) (text : String)
    (he : errorText m = some text) :
    submitHandler p (.response false (.parsed (.value m)))
      = setDisabled false (setLabel p.submitBtn.textContent
          (showFormStatus text "error"
            (issueFetch (submitRequest p) (setDisabled true (setLabel "Sending..." p))))) := by
  simp [submitHandler, submitSteps_of_valid p _ hv, afterFetch, he]

/-- C4, amended: for a valid submission answered by an HTTP response whose body
parses as JSON. If the response is successful the banner shows the success
text, the fields return to their default values (empty ones when the markup
gives none) and, the banner existing, a timer is set that hides it 6000 ms
later. If the response is a failure and the parsed body is not `null`, the
banner shows "Error: " followed by the body's `message` when that is truthy and
can be converted to a string (a non-empty string in particular) and
"Error: Unable to send message." when it is falsy or absent; the fields keep
their values and no timer is set. A truthy message whose conversion to a string
throws ends in the `catch` block instead. -/
theorem parsed_response_banner (p : Page) (hv : ValidInput p) :
    (∀ data : JsonData,
      (submitHandler p (.response true (.parsed data))).formStatus = p.formStatus.map
        (fun _ => ⟨"Success! Your message has been sent.", "form-status success", "block"⟩) ∧
      (submitHandler p (.response true (.parsed data))).name.value = p.name.defaultValue ∧
      (submitHandler p (.response true (.parsed data))).email.value = p.email.defaultValue ∧
      (submitHandler p (.response true (.parsed data))).message.value
        = p.message.defaultValue ∧
      (p.name.defaultValue = "" → p.email.defaultValue = "" → p.message.defaultValue = "" →
        (submitHandler p (.response true (.parsed data))).name.value = "" ∧
        (submitHandler p (.response true (.parsed data))).email.value = "" ∧
        (submitHandler p (.response true (.parsed data))).message.value = "") ∧
      (p.formStatus.isSome = true →
        (submitHandler p (.response true (.parsed data))).timers
          = p.timers ++ [p.clock + 6000] ∧
        (elapse 6000 (submitHandler p (.response true (.parsed data)))).formStatus
          = some ⟨"Success! Your message has been sent.", "form-status success", "none"⟩)) ∧
    (∀ (m : MessageValue) (s : String), m.truthy = true → m.printed = some s →
      (submitHandler p (.response false (.parsed (.value m)))).formStatus = p.formStatus.map
        (fun _ => ⟨"Error: " ++ s, "form-status error", "block"⟩) ∧
      (submitHandler p (.response false (.parsed (.value m)))).name = p.name ∧
      (submitHandler p (.response false (.parsed (.value m)))).email = p.email ∧
      (submitHandler p (.response false (.parsed (.value m)))).message = p.message ∧
      (submitHandler p (.response false (.parsed (.value m)))).timers = p.timers) ∧
    (∀ m : MessageValue, m.truthy = false →
      (submitHandler p (.response false (.parsed (.value m)))).formStatus = p.formStatus.map
        (fun _ => ⟨"Error: Unable to send message.", "form-status error", "block"⟩) ∧
      (submitHandler p (.response false (.parsed (.value m)))).name = p.name ∧
      (submitHandler p (.response false (.parsed (.value m)))).email = p.email ∧
      (submitHandler p (.response false (.parsed (.value m)))).message = p.message ∧
      (submitHandler p (.response false (.parsed (.value m)))).timers = p.timers) ∧
    (∀ s : String, s ≠ "" →
      (submitHandler p (.response false (.parsed (.value (.string s))))).formStatus
        = p.formStatus.map (fun _ => ⟨"Error: " ++ s, "form-status error", "block"⟩)) ∧
    (submitHandler p (.response false (.parsed (.value .undefined)))).formStatus
      = p.formStatus.map
        (fun _ => ⟨"Error: Unable to send message.", "form-status error", "block"⟩) ∧
    ((submitHandler p (.response false (.parsed (.value .unprintable)))).formStatus
      = p.formStatus.map
        (fun _ => ⟨"Something went wrong. Please try again.", "form-status error", "block"⟩) ∧
      (submitHandler p (.response false (.parsed (.value .unprintable)))).consoleErrors
        = p.consoleErrors + 1) := by
  have hok : ∀ data : JsonData,
      submitHandler p (.response true (.parsed data))
        = setDisabled false (setLabel p.submitBtn.textContent
            (resetForm (showFormStatus "Success! Your message has been sent." "success"
              (issueFetch (submitRequest p) (setDisabled true (setLabel "Sending..." p)))))) := by
    intro data
    simp [submitHandler, submitSteps_of_valid p _ hv, afterFetch]
  have hshown : ∀ (m : MessageValue) (text : String), errorText m = some text →
      (submitHandler p (.response false (.parsed (.value m)))).formStatus = p.formStatus.map
        (fun _ => ⟨text, "form-status error", "block"⟩) ∧
      (submitHandler p (.response false (.parsed (.value m)))).name = p.name ∧
      (submitHandler p (.response false (.parsed (.value m)))).email = p.email ∧
      (submitHandler p (.response false (.parsed (.value m)))).message = p.message ∧
      (submitHandler p (.response false (.parsed (.value m)))).timers = p.timers := by
    intro m text he
    rw [submitHandler_failure p hv m text he, showFormStatus_error]
    simp [setDisabled, setLabel, issueFetch]
  refine ⟨?_, ?_, ?_, ?_, ?_, ?_⟩
  · intro data
    rw [hok data, showFormStatus_success]
    cases hs : p.formStatus with
    | none =>
      simp [setDisabled, setLabel, resetForm, issueFetch, hs]
      exact fun a b c => ⟨a, b, c⟩
    | some b =>
      simp [setDisabled, setLabel, resetForm, issueFetch, hs, elapse]
      exact fun a b c => ⟨a, b, c⟩
  · intro m s ht hp
    exact hshown m _ (errorText_of_truthy m s ht hp)
  · intro m ht
    exact hshown m _ (errorText_of_falsy m ht)
  · intro s hs
    have hf : isFalsy s = false := by
      have := mt (isFalsy_iff s).1 hs
      simpa using this
    exact (hshown (.string s) _
      (errorText_of_truthy (.string s) s (by simp [MessageValue.truthy, hf]) rfl)).1
  · exact (hshown .undefined _ (errorText_of_falsy .undefined rfl)).1
  · have : submitHandler p (.response false (.parsed (.value .unprintable)))
        = setDisabled false (setLabel p.submitBtn.textContent
            (showFormStatus "Something went wrong. Please try again." "error"
              (consoleError
                (issueFetch (submitRequest p) (setDisabled true (setLabel "Sending..." p)))))) := by
      simp [submitHandler, submitSteps_of_valid p _ hv, afterFetch, errorText, catchBlock,
        MessageValue.truthy, MessageValue.printed]
    rw [this, showFormStatus_error]
    simp [setDisabled, setLabel, issueFetch, consoleError]

/-- Witness of `parsed_response_banner`: HTTP 400 with the message
"Invalid key". -/
theorem parsed_response_banner_witness :
    (submitHandler (examplePage " Ada " "ada@example.org" "Hello")
        (.response false (.parsed (.value (.string "Invalid key"))))).formStatus
      = (examplePage " Ada " "ada@example.org" "Hello").formStatus.map
          (fun _ => ⟨"Error: " ++ "Invalid key", "form-status error", "block"⟩) :=
  ((parsed_response_banner (examplePage " Ada " "ada@example.org" "Hello")
    examplePage_valid).2.1 (.string "Invalid key") "Invalid key" (by decide) rfl).1

/-- C5 fails on the code: after a successful submission the user submits the
(reset, hence empty) form again 2000 ms later and gets the required-fields
error; 4000 ms after that the timer of the success banner fires and hides the
banner while it shows the error. -/
theorem stale_timer_hides_error_banner :
    (formRun (examplePage "Ada" "ada@example.org" "Hello")
        [.submit (.response true (.parsed (.value .undefined))), .wait 2000,
          .submit .rejected]).formStatus
      = some ⟨"Please complete all required fields.", "form-status error", "block"⟩ ∧
    (formRun (examplePage "Ada" "ada@example.org" "Hello")
        [.submit (.response true (.parsed (.value .undefined))), .wait 2000,
          .submit .rejected, .wait 4000]).formStatus
      = some ⟨"Please complete all required fields.", "form-status error", "none"⟩ := by
  decide

/-! ### Counter animation -/

theorem rounding_lower (rnd : ℚ → ℚ) (hr : Binary64Rounding rnd) (x : ℚ) :
    x - |x| / 2 ^ 53 ≤ rnd x := by
  have := (abs_le.1 (hr x)).1
  linarith

theorem rounding_upper (rnd : ℚ → ℚ) (hr : Binary64Rounding rnd) (x : ℚ) :
    rnd x ≤ x + |x| / 2 ^ 53 := by
  have := (abs_le.1 (hr x)).2
  linarith

theorem updateCounter_stops (rnd : ℚ → ℚ) (target : Int) (inc c : ℚ)
    (h : ¬ rnd (c + inc) < target) (fuel : Nat) (hfuel : 1 ≤ fuel) :
    updateCounter rnd target inc fuel c = some [.setText target] := by
  obtain ⟨f, rfl⟩ : ∃ f, fuel = f + 1 := ⟨fuel - 1, by omega⟩
  simp only [updateCounter, h, if_false]

theorem updateCounter_progress (rnd : ℚ → ℚ) (target : Int) (inc δ : ℚ) (hδ : 0 < δ)
    (hstep : ∀ c : ℚ, 0 ≤ c → c < target → c + δ ≤ rnd (c + inc)) :
    ∀ (n : Nat) (c : ℚ), 0 ≤ c → c < target → (target : ℚ) - c ≤ n * δ →
      ∃ vs : List Int, ∀ fuel, n ≤ fuel →
        updateCounter rnd target inc fuel c = some (frames vs ++ [.setText target]) := by
  intro n
  induction n with
  | zero =>
    intro c _ hc hn
    simp only [Nat.cast_zero, zero_mul] at hn
    linarith
  | succ n ih =>
    intro c hc0 hc hn
    have hs := hstep c hc0 hc
    by_cases hlt : rnd (c + inc) < target
    · have hn' : (target : ℚ) - rnd (c + inc) ≤ n * δ := by
        push_cast at hn
        linarith
      obtain ⟨vs, hvs⟩ := ih (rnd (c + inc)) (by linarith) hlt hn'
      refine ⟨⌊rnd (c + inc)⌋ :: vs, ?_⟩
      intro fuel hfuel
      obtain ⟨f, rfl⟩ : ∃ f, fuel = f + 1 := ⟨fuel - 1, by omega⟩
      simp only [updateCounter, hlt, if_true, hvs f (by omega), Option.map_some']
      simp [frames]
    · refine ⟨[], ?_⟩
      intro fuel hfuel
      rw [updateCounter_stops rnd target inc c hlt fuel (by omega)]
      simp [frames]

theorem animateCounter_nonpos (rnd : ℚ → ℚ) (hr : Binary64Rounding rnd) (target : Int)
    (ht : target ≤ 0) (fuel : Nat) (hfuel : 1 ≤ fuel) :
    animateCounter rnd target fuel = some [.setText target] := by
  unfold animateCounter
  apply updateCounter_stops _ _ _ _ _ fuel hfuel
  have hT : (target : ℚ) ≤ 0 := by exact_mod_cast ht
  set x : ℚ := (target : ℚ) / (2000 / 16) with hx
  have hx0 : x ≤ 0 := by rw [hx]; apply div_nonpos_of_nonpos_of_nonneg hT; norm_num
  have h1 := rounding_lower rnd hr x
  have h2 := rounding_upper rnd hr x
  rw [abs_of_nonpos hx0] at h1 h2
  have hi0 : rnd x ≤ 0 := by
    have : x + -x / 2 ^ 53 ≤ 0 := by
      have : x + -x / 2 ^ 53 = x * (1 - 1 / 2 ^ 53) := by ring
      rw [this]
      apply mul_nonpos_of_nonpos_of_nonneg hx0
      norm_num
    linarith
  have h3 := rounding_lower rnd hr (0 + rnd x)
  rw [zero_add, abs_of_nonpos hi0] at h3
  rw [zero_add] at *
  have hxT : x = (target : ℚ) / 125 := by rw [hx]; norm_num
  have key : (target : ℚ) ≤ rnd (rnd x) := by
    have e1 : rnd x - -rnd x / 2 ^ 53 = rnd x * (1 + 1 / 2 ^ 53) := by ring
    have e2 : x - -x / 2 ^ 53 = x * (1 + 1 / 2 ^ 53) := by ring
    rw [e1] at h3
    rw [e2] at h1
    have hpos : (0 : ℚ) ≤ 1 + 1 / 2 ^ 53 := by norm_num
    have h4 : x * (1 + 1 / 2 ^ 53) * (1 + 1 / 2 ^ 53) ≤ rnd x * (1 + 1 / 2 ^ 53) :=
      mul_le_mul_of_nonneg_right h1 hpos
    have h5 : (target : ℚ) ≤ x * (1 + 1 / 2 ^ 53) * (1 + 1 / 2 ^ 53) := by
      rw [hxT]
      have : (target : ℚ) / 125 * (1 + 1 / 2 ^ 53) * (1 + 1 / 2 ^ 53)
          = (target : ℚ) * ((1 + 1 / 2 ^ 53) * (1 + 1 / 2 ^ 53) / 125) := by ring
      rw [this]
      have hk : ((1 : ℚ) + 1 / 2 ^ 53) * (1 + 1 / 2 ^ 53) / 125 ≤ 1 := by norm_num
      nlinarith
    linarith
  exact not_lt.2 key

theorem animateCounter_pos (rnd : ℚ → ℚ) (hr : Binary64Rounding rnd) (target : Int)
    (ht : 0 < target) :
    ∃ (n : Nat) (vs : List Int), ∀ fuel, n ≤ fuel →
      animateCounter rnd target fuel = some (frames vs ++ [.setText target]) := by
  have hT : (0 : ℚ) < target := by exact_mod_cast ht
  set x : ℚ := (target : ℚ) / (2000 / 16) with hx
  have hxT : x = (target : ℚ) / 125 := by rw [hx]; norm_num
  have hx0 : 0 ≤ x := by rw [hxT]; positivity
  have h1 := rounding_lower rnd hr x
  rw [abs_of_nonneg hx0] at h1
  have hinc : (target : ℚ) / 125 * (1 - 1 / 2 ^ 53) ≤ rnd x := by
    have : x - x / 2 ^ 53 = (target : ℚ) / 125 * (1 - 1 / 2 ^ 53) := by rw [hxT]; ring
    linarith
  have hinc0 : 0 < rnd x := by
    have : (0 : ℚ) < (target : ℚ) / 125 * (1 - 1 / 2 ^ 53) := by
      apply mul_pos
      · positivity
      · norm_num
    linarith
  set δ : ℚ := rnd x * (1 - 1 / 2 ^ 53) - (target : ℚ) / 2 ^ 53 with hδdef
  have hδ : 0 < δ := by
    have hk : (0 : ℚ) < (1 - 1 / 2 ^ 53) * (1 - 1 / 2 ^ 53) / 125 - 1 / 2 ^ 53 := by norm_num
    have h2 : (target : ℚ) / 125 * (1 - 1 / 2 ^ 53) * (1 - 1 / 2 ^ 53)
        ≤ rnd x * (1 - 1 / 2 ^ 53) :=
      mul_le_mul_of_nonneg_right hinc (by norm_num)
    have h3 : (target : ℚ) * ((1 - 1 / 2 ^ 53) * (1 - 1 / 2 ^ 53) / 125 - 1 / 2 ^ 53)
        = (target : ℚ) / 125 * (1 - 1 / 2 ^ 53) * (1 - 1 / 2 ^ 53) - (target : ℚ) / 2 ^ 53 := by
      ring
    have h4 := mul_pos hT hk
    rw [h3] at h4
    rw [hδdef]
    linarith
  have hstep : ∀ c : ℚ, 0 ≤ c → c < target → c + δ ≤ rnd (c + rnd x) := by
    intro c hc0 hc
    have hl := rounding_lower rnd hr (c + rnd x)
    rw [abs_of_nonneg (by linarith)] at hl
    have e : c + rnd x - (c + rnd x) / 2 ^ 53
        = c + rnd x * (1 - 1 / 2 ^ 53) - c / 2 ^ 53 := by ring
    rw [e] at hl
    have hc' : c / 2 ^ 53 ≤ (target : ℚ) / 2 ^ 53 := by
      apply div_le_div_of_nonneg_right (le_of_lt hc)
      positivity
    rw [hδdef]
    linarith
  obtain ⟨n, hn⟩ := exists_nat_ge ((target : ℚ) / δ)
  have hn' : (target : ℚ) - 0 ≤ n * δ := by
    rw [sub_zero]
    exact (div_le_iff₀ hδ).1 hn
  obtain ⟨vs, hvs⟩ := updateCounter_progress rnd target (rnd x) δ hδ hstep n 0 le_rfl hT hn'
  exact ⟨n, vs, fun fuel hfuel => hvs fuel hfuel⟩

/-- C6: for every integer target the counter animation stops: with enough fuel
`animateCounter` returns, its effects are finitely many frames (a write of a
value and a frame request each) followed by the write of the target, which is
the last effect, so no frame is requested after it; for a target that is 0 or
negative the first pass writes the target and requests no frame. This holds for
binary64 rounding and for exact arithmetic. -/
theorem counter_reaches_target (rnd : ℚ → ℚ) (hr : Binary64Rounding rnd) (target : Int) :
    ∃ (n : Nat) (vs : List Int),
      (∀ fuel, n ≤ fuel →
        animateCounter rnd target fuel = some (frames vs ++ [.setText target])) ∧
      (frames vs ++ [CounterEffect.setText target]).getLast? = some (.setText target) ∧
      (target ≤ 0 → vs = [] ∧ animateCounter rnd target 1 = some [.setText target]) := by
  by_cases ht : target ≤ 0
  · refine ⟨1, [], ?_, by simp, fun _ => ⟨rfl, animateCounter_nonpos rnd hr target ht 1 le_rfl⟩⟩
    intro fuel hfuel
    rw [animateCounter_nonpos rnd hr target ht fuel hfuel]
    simp [frames]
  · obtain ⟨n, vs, h⟩ := animateCounter_pos rnd hr target (by omega)
    exact ⟨n, vs, h, by simp, fun h0 => absurd h0 ht⟩

/-- Witness of `counter_reaches_target`: target 100 in exact arithmetic. -/
theorem counter_reaches_target_witness :
    ∃ (n : Nat) (vs : List Int),
      (∀ fuel, n ≤ fuel →
        animateCounter id 100 fuel = some (frames vs ++ [.setText 100])) ∧
      (frames vs ++ [CounterEffect.setText 100]).getLast? = some (.setText 100) ∧
      ((100 : Int) ≤ 0 → vs = [] ∧ animateCounter id 100 1 = some [.setText 100]) :=
  counter_reaches_target id (fun x => by simp only [id, sub_self, abs_zero]; positivity) 100

end WebSite
